import Mathlib

/-!
Verification of `gpytorch/kernels/scale_kernel.py` (`ScaleKernel`).

The file embeds the module shallowly:

* A torch tensor is modelled as a shape (list of dimension sizes) together
  with a total valuation on index lists; only indices within the shape are
  meaningful, the valuation is total for convenience.
* The result of a base kernel method `forward` is a `CovarResult`: a tensor
  tagged as either a concrete dense tensor or a lazy (deferred) tensor, so
  that the representation policy of `ScaleKernel.forward` can be stated.
* The constraint machinery (`gpytorch.constraints.Positive`), `delazify`
  and the parameter-registration plumbing of the `Kernel`/`Module` base
  classes are not part of the given source file; they are modelled from the
  specification where needed, with doc comments marking each such model.
* Tensor entries are real numbers; floating point rounding is out of scope.
-/

namespace GPyTorch

/-- A torch tensor: a shape (sizes of each dimension, outermost first) and a
valuation assigning a real entry to every index list.  Indices outside the
shape are irrelevant but the valuation is total. -/
structure Tensor where
  shape : List Nat
  val : List Nat → ℝ

/-- `t.dim()` in torch: the number of dimensions. -/
def Tensor.dim (t : Tensor) : Nat := t.shape.length

/-- `t.size(-1)` in torch: the size of the trailing dimension. -/
def Tensor.sizeLast (t : Tensor) : Nat := t.shape.getLastD 0

/-- `t.unsqueeze(0)` in torch: insert a new leading axis of size 1. -/
def Tensor.unsqueeze0 (t : Tensor) : Tensor :=
  ⟨1 :: t.shape, fun idx => t.val idx.tail⟩

/-- `t.repeat(n, 1, ..., 1)` in torch: replicate the tensor `n` times along
dimension 0 and keep all other dimensions; an entry at leading index `i`
reads the source at `i % s₀`. -/
def Tensor.repeatDim0 (t : Tensor) (n : Nat) : Tensor :=
  ⟨n * t.shape.headD 1 :: t.shape.tail,
   fun idx => t.val (idx.headD 0 % t.shape.headD 1 :: idx.tail)⟩

/-- `t.view(*t.shape, *([1] * k))` in torch: append `k` trailing singleton
dimensions; an entry is read from the source at the original index prefix. -/
def Tensor.viewAppendOnes (t : Tensor) (k : Nat) : Tensor :=
  ⟨t.shape ++ List.replicate k 1, fun idx => t.val (idx.take t.shape.length)⟩

/-- Broadcasting index adjustment: along each dimension where the broadcast
operand has size 1, the index collapses to 0; elsewhere it is kept. -/
def broadcastIdx (bshape idx : List Nat) : List Nat :=
  List.zipWith (fun s i => if s = 1 then 0 else i) bshape idx

/-- Elementwise product `a * b` with torch broadcasting, in the situation of
`ScaleKernel.forward`: `b` has been viewed to the rank of `a` with singleton
dimensions, so the entries of `b` broadcast into the shape of `a`. -/
def Tensor.mulB (a b : Tensor) : Tensor :=
  ⟨a.shape, fun idx => a.val idx * b.val (broadcastIdx b.shape idx)⟩

/-- `torch.zeros(*shape)` (also the 0-dimensional `torch.tensor(0.)` when
`shape = []`). -/
def Tensor.zeros (shape : List Nat) : Tensor := ⟨shape, fun _ => 0⟩

/-- A 0-dimensional scalar tensor. -/
def Tensor.scalar (x : ℝ) : Tensor := ⟨[], fun _ => x⟩

/-- The result of a kernel `forward`: a tensor in either a concrete dense
representation or a lazy (deferred) representation. -/
inductive CovarResult where
  | dense (t : Tensor)
  | lazy (t : Tensor)

/-- The logical tensor content of a covariance result. -/
def CovarResult.tensor : CovarResult → Tensor
  | .dense t => t
  | .lazy t => t

/-- Whether the result is in a lazy representation. -/
def CovarResult.isLazy : CovarResult → Bool
  | .dense _ => false
  | .lazy _ => true

/-- `r.dim()`: the number of dimensions of the underlying tensor. -/
def CovarResult.dim (r : CovarResult) : Nat := r.tensor.dim

/-- Modelled from the spec: `delazify` forces a covariance result into a
concrete dense tensor, materializing a lazy representation; a dense tensor
is returned as is.  (`gpytorch.lazy.delazify` is not part of the given
source file.) -/
def delazify : CovarResult → Tensor
  | .dense t => t
  | .lazy t => t

/-- Modelled from the spec: elementwise `mul` on a covariance result keeps
its representation — a dense result stays dense and a lazy result stays
lazy — while the entries are multiplied with broadcasting.  (The lazy
tensor algebra is not part of the given source file.) -/
def CovarResult.mul : CovarResult → Tensor → CovarResult
  | .dense t, s => .dense (t.mulB s)
  | .lazy t, s => .lazy (t.mulB s)

/-- Modelled from the spec: a parameter constraint, providing an elementwise
`transform` from unconstrained to constrained values, its `inverse_transform`,
and the lower bound of the valid constrained domain.
(`gpytorch.constraints` is not part of the given source file.) -/
structure Constraint where
  transform : ℝ → ℝ
  inverse_transform : ℝ → ℝ
  lower_bound : ℝ

/-- The softplus function `x ↦ log (1 + exp x)`. -/
noncomputable def softplus (x : ℝ) : ℝ := Real.log (1 + Real.exp x)

/-- The inverse of softplus on the positive reals, `y ↦ log (exp y - 1)`. -/
noncomputable def softplusInv (y : ℝ) : ℝ := Real.log (Real.exp y - 1)

/-- Modelled from the spec: the default `Positive()` constraint — a
strictly increasing bijection from the reals onto the positive reals
(softplus parameterization), with valid constrained domain `(0, ∞)`. -/
noncomputable def Positive : Constraint := ⟨softplus, softplusInv, 0⟩

/-- The `ScaleKernel` module state: the wrapped base kernel (modelled by its
`forward` and `size` behaviour), the construction-time `batch_shape`, the
registered raw parameter `raw_outputscale`, and the registered constraint
`raw_outputscale_constraint`. -/
structure ScaleKernel where
  base_forward : Tensor → Tensor → Option (Nat × Nat) → Bool → CovarResult
  base_size : Tensor → Tensor → List Nat
  batch_shape : List Nat
  raw_outputscale : Tensor
  raw_outputscale_constraint : Constraint

/-- `ScaleKernel.__init__`: stores the base kernel, creates the raw
parameter as `torch.zeros(*batch_shape)` when `batch_shape` is non-empty and
as the 0-dimensional `torch.tensor(0.)` otherwise, and registers the given
constraint, defaulting to `Positive()` when none is supplied.  (Prior
registration only wires the getter/setter closures to an external
collaborator and holds no further state relevant to the claims.) -/
noncomputable def ScaleKernel.init
    (base_forward : Tensor → Tensor → Option (Nat × Nat) → Bool → CovarResult)
    (base_size : Tensor → Tensor → List Nat)
    (batch_shape : List Nat)
    (outputscale_constraint : Option Constraint) : ScaleKernel :=
  { base_forward := base_forward
    base_size := base_size
    batch_shape := batch_shape
    raw_outputscale :=
      if batch_shape.length ≠ 0 then Tensor.zeros batch_shape else Tensor.scalar 0
    raw_outputscale_constraint := outputscale_constraint.getD Positive }

/-- The `outputscale` property getter: applies the `transform` of the registered constraint elementwise to the current `raw_outputscale`. -/
def ScaleKernel.outputscale (k : ScaleKernel) : Tensor :=
  ⟨k.raw_outputscale.shape,
   fun i => k.raw_outputscale_constraint.transform (k.raw_outputscale.val i)⟩

/-- `ScaleKernel._set_outputscale`: stores
`inverse_transform(value)` into `raw_outputscale` (via `initialize`). -/
def ScaleKernel._set_outputscale (k : ScaleKernel) (value : Tensor) : ScaleKernel :=
  { k with raw_outputscale :=
      ⟨value.shape,
       fun i => k.raw_outputscale_constraint.inverse_transform (value.val i)⟩ }

/-- The error raised when a supplied outputscale lies outside the
valid domain of the constraint. -/
inductive InvalidScaleError where
  | invalidValue
deriving DecidableEq

/-- Modelled from the spec: the checked outputscale setter for a scalar
value — it raises `InvalidScaleError` when the supplied value lies outside
the valid domain of the constraint (at or below the lower bound) and otherwise
stores `inverse_transform(value)` into the raw parameter.  (The domain
validation lives in the constraint machinery, which is not part of the
given source file.) -/
noncomputable def ScaleKernel.set_outputscale (k : ScaleKernel) (value : ℝ) :
    Except InvalidScaleError ScaleKernel :=
  if k.raw_outputscale_constraint.lower_bound < value then
    .ok (k._set_outputscale (Tensor.scalar value))
  else
    .error .invalidValue

/-- The module state after a checked set: the new state on success, the old
state untouched on error. -/
noncomputable def ScaleKernel.afterSet (k : ScaleKernel) (value : ℝ) : ScaleKernel :=
  match k.set_outputscale value with
  | .ok k' => k'
  | .error _ => k

/-- Lines 82–84 of `forward`: the outputscale tensor actually used for the
multiplication, before the trailing-singleton view — expanded with
`unsqueeze(0).repeat(x1.size(-1), 1, ..., 1)` exactly when
`batch_dims == (0, 2)`, and used unexpanded otherwise. -/
def ScaleKernel.forwardScales (k : ScaleKernel) (x1 : Tensor)
    (batch_dims : Option (Nat × Nat)) : Tensor :=
  let outputscales := k.outputscale
  if batch_dims = some (0, 2) then
    (outputscales.unsqueeze0).repeatDim0 x1.sizeLast
  else
    outputscales

/-- `ScaleKernel.forward`: read the current outputscale, expand it in the
`batch_dims == (0, 2)` case, evaluate the base kernel, view the scales with
trailing singleton dimensions up to the rank of the base output, then
multiply — through `delazify` into a dense result when `diag` is true, and
through the own `mul` of the result otherwise. -/
def ScaleKernel.forward (k : ScaleKernel) (x1 x2 : Tensor)
    (batch_dims : Option (Nat × Nat)) (diag : Bool) : CovarResult :=
  let outputscales := k.forwardScales x1 batch_dims
  let orig_output := k.base_forward x1 x2 batch_dims diag
  let outputscales := outputscales.viewAppendOnes (orig_output.dim - outputscales.dim)
  if diag then
    .dense ((delazify orig_output).mulB outputscales)
  else
    orig_output.mul outputscales

/-- `ScaleKernel.forward` in state-passing form: the Python method body
performs no assignment to `self`, so the faithful state-passing translation
returns the module state unchanged alongside the result. -/
def ScaleKernel.forwardS (k : ScaleKernel) (x1 x2 : Tensor)
    (batch_dims : Option (Nat × Nat)) (diag : Bool) : CovarResult × ScaleKernel :=
  (k.forward x1 x2 batch_dims diag, k)

/-- `ScaleKernel.size`: delegates to the `size` of the base kernel. -/
def ScaleKernel.size (k : ScaleKernel) (x1 x2 : Tensor) : List Nat :=
  k.base_size x1 x2

/-- An in-place overwrite of the raw parameter, as performed by an external
optimizer step: only the stored `raw_outputscale` changes. -/
def ScaleKernel.updateRaw (k : ScaleKernel) (r : Tensor) : ScaleKernel :=
  { k with raw_outputscale := r }

/-! ### Shared helper lemmas -/

lemma softplus_pos (x : ℝ) : 0 < softplus x := by
  have h := Real.exp_pos x
  exact Real.log_pos (by linarith)

lemma softplus_softplusInv {v : ℝ} (hv : 0 < v) : softplus (softplusInv v) = v := by
  have h1 : (1 : ℝ) < Real.exp v := Real.one_lt_exp_iff.mpr hv
  unfold softplus softplusInv
  rw [Real.exp_log (by linarith), show (1 + (Real.exp v - 1)) = Real.exp v by ring,
    Real.log_exp]

lemma CovarResult.tensor_mul (r : CovarResult) (s : Tensor) :
    (r.mul s).tensor = r.tensor.mulB s := by
  cases r <;> rfl

lemma delazify_eq_tensor (r : CovarResult) : delazify r = r.tensor := by
  cases r <;> rfl

lemma CovarResult.isLazy_mul (r : CovarResult) (s : Tensor) :
    (r.mul s).isLazy = r.isLazy := by
  cases r <;> rfl

lemma ScaleKernel.forward_tensor (k : ScaleKernel) (x1 x2 : Tensor)
    (bd : Option (Nat × Nat)) (diag : Bool) :
    (k.forward x1 x2 bd diag).tensor =
      (k.base_forward x1 x2 bd diag).tensor.mulB
        ((k.forwardScales x1 bd).viewAppendOnes
          ((k.base_forward x1 x2 bd diag).dim - (k.forwardScales x1 bd).dim)) := by
  unfold ScaleKernel.forward
  cases diag
  · simp [CovarResult.tensor_mul]
  · simp [delazify_eq_tensor, CovarResult.tensor]

/-! ### Concrete objects used by witnesses -/

/-- A concrete input tensor for witnesses. -/
def T0 : Tensor := Tensor.zeros [3, 2]

/-- A concrete raw-parameter tensor for witnesses. -/
noncomputable def R1 : Tensor := ⟨[3], fun _ => 1⟩

/-- A concrete `ScaleKernel` for witnesses: the base kernel returns a dense
constant batch of three 2×2 matrices, `batch_shape = [3]`, zero raw
parameter, default `Positive` constraint. -/
noncomputable def Kdemo : ScaleKernel :=
  { base_forward := fun _ _ _ _ => .dense ⟨[3, 2, 2], fun _ => 2⟩
    base_size := fun _ _ => [3, 2, 2]
    batch_shape := [3]
    raw_outputscale := ⟨[3], fun _ => 0⟩
    raw_outputscale_constraint := Positive }

/-! ### Claim theorems -/

/-- Claim C3: for every constructed `ScaleKernel` whose registered constraint
is the default `Positive` one, every element of the `outputscale` getter,
i.e. `transform(raw_outputscale)`, is strictly positive — for any raw
parameter value whatsoever. -/
theorem outputscale_strictly_pos (k : ScaleKernel)
    (hk : k.raw_outputscale_constraint = Positive) (i : List Nat) :
    0 < k.outputscale.val i := by
  simp only [ScaleKernel.outputscale, hk, Positive]
  exact softplus_pos _

/-- Witness for C3 at the concrete kernel `Kdemo`. -/
theorem outputscale_strictly_pos_witness : 0 < Kdemo.outputscale.val [0] :=
  outputscale_strictly_pos Kdemo rfl [0]

/-- Claim C2: for every tensor `v` with all entries strictly positive (the
valid domain of the `Positive` constraint), setting the outputscale via
`_set_outputscale v` and then reading the `outputscale` getter returns `v`
exactly: `transform (inverse_transform v) = v`, entry for entry, with the
shape preserved. -/
theorem outputscale_roundtrip (k : ScaleKernel) (v : Tensor)
    (hk : k.raw_outputscale_constraint = Positive)
    (hv : ∀ i, 0 < v.val i) :
    (k._set_outputscale v).outputscale.shape = v.shape ∧
    ∀ i, (k._set_outputscale v).outputscale.val i = v.val i := by
  refine ⟨rfl, fun i => ?_⟩
  simp only [ScaleKernel.outputscale, ScaleKernel._set_outputscale, hk, Positive]
  exact softplus_softplusInv (hv i)

/-- Witness for C2 at the concrete kernel `Kdemo` and the scalar value 1. -/
theorem outputscale_roundtrip_witness :
    (Kdemo._set_outputscale (Tensor.scalar 1)).outputscale.shape =
      (Tensor.scalar 1).shape ∧
    ∀ i, (Kdemo._set_outputscale (Tensor.scalar 1)).outputscale.val i =
      (Tensor.scalar 1).val i :=
  outputscale_roundtrip Kdemo (Tensor.scalar 1) rfl (fun _ => one_pos)

/-- Claim C4: `ScaleKernel.size` returns exactly the `size` of the base
kernel on the same inputs, for every pair of inputs. -/
theorem size_delegates (k : ScaleKernel) (x1 x2 : Tensor) :
    k.size x1 x2 = k.base_size x1 x2 := rfl

/-- Claim C6: at construction, `raw_outputscale` is zero-initialized with
shape equal to `batch_shape`; in particular it has shape `batch_shape` when
`batch_shape` is non-empty and is a 0-dimensional scalar equal to 0 when
`batch_shape` is empty. -/
theorem init_raw_outputscale
    (bf : Tensor → Tensor → Option (Nat × Nat) → Bool → CovarResult)
    (bs : Tensor → Tensor → List Nat)
    (bshape : List Nat) (c : Option Constraint) :
    (ScaleKernel.init bf bs bshape c).raw_outputscale.shape = bshape ∧
    ∀ i, (ScaleKernel.init bf bs bshape c).raw_outputscale.val i = 0 := by
  cases bshape with
  | nil => exact ⟨rfl, fun _ => rfl⟩
  | cons a l => exact ⟨rfl, fun _ => rfl⟩

/-- Claim C9: `forward` leaves the module state unchanged — in state-passing
form the returned state is the input state, so in particular
`raw_outputscale` has the same value and shape after the call as before. -/
theorem forward_frame (k : ScaleKernel) (x1 x2 : Tensor)
    (bd : Option (Nat × Nat)) (diag : Bool) :
    (k.forwardS x1 x2 bd diag).2 = k ∧
    (k.forwardS x1 x2 bd diag).2.raw_outputscale = k.raw_outputscale :=
  ⟨rfl, rfl⟩

lemma tail_take_one {α : Type} (l : List α) : (l.take 1).tail = [] := by
  cases l <;> rfl

/-- Claim C1: `forward` scales the base result elementwise.  (a) Whenever the
raw parameter is a 0-dimensional scalar, every entry of the result equals the
constrained outputscale times the corresponding entry of the base result,
for every `batch_dims` and both values of `diag`.  (b) When the raw
parameter has batch shape `[3]` and the base result has batch size 3, batch
slice `i` of the result equals `scale[i]` times batch slice `i` of the base
result. -/
theorem forward_scaling :
    (∀ (k : ScaleKernel) (x1 x2 : Tensor) (bd : Option (Nat × Nat)) (diag : Bool)
        (idx : List Nat),
      k.raw_outputscale.shape = [] →
      (k.forward x1 x2 bd diag).tensor.val idx =
        k.raw_outputscale_constraint.transform (k.raw_outputscale.val []) *
          (k.base_forward x1 x2 bd diag).tensor.val idx) ∧
    (∀ (k : ScaleKernel) (x1 x2 : Tensor) (i : Nat) (idx : List Nat),
      k.raw_outputscale.shape = [3] →
      (k.base_forward x1 x2 none false).tensor.shape.headD 0 = 3 →
      (k.forward x1 x2 none false).tensor.val (i :: idx) =
        k.raw_outputscale_constraint.transform (k.raw_outputscale.val [i]) *
          (k.base_forward x1 x2 none false).tensor.val (i :: idx)) := by
  constructor
  · intro k x1 x2 bd diag idx h
    rw [ScaleKernel.forward_tensor]
    simp only [Tensor.mulB]
    rw [mul_comm]
    congr 1
    by_cases hbd : bd = some (0, 2)
    · simp [ScaleKernel.forwardScales, hbd, Tensor.viewAppendOnes, Tensor.repeatDim0,
        Tensor.unsqueeze0, ScaleKernel.outputscale, h, tail_take_one]
    · simp [ScaleKernel.forwardScales, hbd, Tensor.viewAppendOnes,
        ScaleKernel.outputscale, h]
  · intro k x1 x2 i idx h _hb
    rw [ScaleKernel.forward_tensor]
    simp only [Tensor.mulB]
    rw [mul_comm]
    congr 1
    simp [ScaleKernel.forwardScales, Tensor.viewAppendOnes, ScaleKernel.outputscale,
      h, broadcastIdx]

/-- Witness for C1: both parts at concrete inputs — the scalar-parameter
case at a kernel with empty batch shape, and the batch case at `Kdemo`. -/
theorem forward_scaling_witness :
    ((ScaleKernel.mk (fun _ _ _ _ => .dense ⟨[3, 3], fun _ => 2⟩)
        (fun _ _ => [3, 3]) [] (Tensor.scalar 0) Positive).forward
          T0 T0 none false).tensor.val [1, 2] =
      Positive.transform ((Tensor.scalar 0).val []) *
        ((ScaleKernel.mk (fun _ _ _ _ => .dense ⟨[3, 3], fun _ => 2⟩)
          (fun _ _ => [3, 3]) [] (Tensor.scalar 0) Positive).base_forward
            T0 T0 none false).tensor.val [1, 2] ∧
    (Kdemo.forward T0 T0 none false).tensor.val (0 :: [1, 1]) =
      Kdemo.raw_outputscale_constraint.transform (Kdemo.raw_outputscale.val [0]) *
        (Kdemo.base_forward T0 T0 none false).tensor.val (0 :: [1, 1]) :=
  ⟨forward_scaling.1 (ScaleKernel.mk (fun _ _ _ _ => .dense ⟨[3, 3], fun _ => 2⟩)
      (fun _ _ => [3, 3]) [] (Tensor.scalar 0) Positive) T0 T0 none false [1, 2] rfl,
   forward_scaling.2 Kdemo T0 T0 0 [1, 1] rfl rfl⟩

/-- Claim C5: calling the checked setter with the out-of-domain value `-1`
under the `Positive` constraint raises `InvalidScaleError`, and the stored
raw parameter is left unchanged. -/
theorem set_outputscale_invalid (k : ScaleKernel)
    (hk : k.raw_outputscale_constraint = Positive) :
    k.set_outputscale (-1) = .error .invalidValue ∧
    (k.afterSet (-1)).raw_outputscale = k.raw_outputscale := by
  have h : ¬ k.raw_outputscale_constraint.lower_bound < (-1 : ℝ) := by
    rw [hk]
    show ¬ (0 : ℝ) < -1
    norm_num
  refine ⟨?_, ?_⟩
  · simp [ScaleKernel.set_outputscale, h]
  · simp [ScaleKernel.afterSet, ScaleKernel.set_outputscale, h]

/-- Witness for C5 at the concrete kernel `Kdemo`. -/
theorem set_outputscale_invalid_witness :
    Kdemo.set_outputscale (-1) = .error .invalidValue ∧
    (Kdemo.afterSet (-1)).raw_outputscale = Kdemo.raw_outputscale :=
  set_outputscale_invalid Kdemo rfl

/-- Claim C7: when `batch_dims = (0, 2)`, the scale tensor used by `forward`
is the stored outputscale expanded with a new leading axis of size equal to
the trailing dimension of `x1`, replicating the existing scale values along
that axis; for any other `batch_dims` the scale is used unexpanded. -/
theorem forwardScales_expand (k : ScaleKernel) (x1 : Tensor)
    (bd : Option (Nat × Nat)) :
    (bd = some (0, 2) →
      (k.forwardScales x1 bd).shape = x1.sizeLast :: k.outputscale.shape ∧
      ∀ (i : Nat) (idx : List Nat),
        (k.forwardScales x1 bd).val (i :: idx) = k.outputscale.val idx) ∧
    (bd ≠ some (0, 2) → k.forwardScales x1 bd = k.outputscale) := by
  constructor
  · intro h
    subst h
    refine ⟨?_, fun i idx => ?_⟩
    · simp [ScaleKernel.forwardScales, Tensor.repeatDim0, Tensor.unsqueeze0]
    · simp [ScaleKernel.forwardScales, Tensor.repeatDim0, Tensor.unsqueeze0]
  · intro h
    simp [ScaleKernel.forwardScales, h]

/-- Witness for C7: both the expansion at `batch_dims = (0, 2)` and the
unexpanded use at `batch_dims = none`, at the concrete kernel `Kdemo`. -/
theorem forwardScales_expand_witness :
    ((Kdemo.forwardScales T0 (some (0, 2))).shape =
        T0.sizeLast :: Kdemo.outputscale.shape ∧
      ∀ (i : Nat) (idx : List Nat),
        (Kdemo.forwardScales T0 (some (0, 2))).val (i :: idx) =
          Kdemo.outputscale.val idx) ∧
    Kdemo.forwardScales T0 none = Kdemo.outputscale :=
  ⟨(forwardScales_expand Kdemo T0 (some (0, 2))).1 rfl,
   (forwardScales_expand Kdemo T0 none).2 (by decide)⟩

/-- Claim C8: representation policy of `forward` — with `diag = true` the
result is dense (the base result is materialized through `delazify` before
the multiplication), with `diag = false` the result keeps the representation
of the base result (lazy stays lazy, dense stays dense), and in all cases
the scaled result has the same logical shape as the base result. -/
theorem forward_representation_policy (k : ScaleKernel) (x1 x2 : Tensor)
    (bd : Option (Nat × Nat)) :
    (k.forward x1 x2 bd true).isLazy = false ∧
    (k.forward x1 x2 bd false).isLazy = (k.base_forward x1 x2 bd false).isLazy ∧
    ∀ diag, (k.forward x1 x2 bd diag).tensor.shape =
      (k.base_forward x1 x2 bd diag).tensor.shape := by
  refine ⟨?_, ?_, fun diag => ?_⟩
  · simp [ScaleKernel.forward, CovarResult.isLazy]
  · simp [ScaleKernel.forward, CovarResult.isLazy_mul]
  · rw [ScaleKernel.forward_tensor]
    rfl

/-- Claim C10: the constrained outputscale is never cached.  The getter
recomputes `transform` on the current raw parameter after any in-place raw
update, and the `forward` result is fully determined by the current
`base_forward`, `raw_outputscale` and constraint — so an update to the raw
parameter is immediately reflected in the next read and the next `forward`
result. -/
theorem outputscale_not_cached (k : ScaleKernel) (r : Tensor) :
    (∀ i, (k.updateRaw r).outputscale.val i =
      k.raw_outputscale_constraint.transform (r.val i)) ∧
    (∀ (k2 : ScaleKernel) (x1 x2 : Tensor) (bd : Option (Nat × Nat)) (diag : Bool),
      k2.base_forward = k.base_forward →
      k2.raw_outputscale = (k.updateRaw r).raw_outputscale →
      k2.raw_outputscale_constraint = k.raw_outputscale_constraint →
      k2.forward x1 x2 bd diag = (k.updateRaw r).forward x1 x2 bd diag) := by
  refine ⟨fun i => rfl, fun k2 x1 x2 bd diag h1 h2 h3 => ?_⟩
  simp [ScaleKernel.forward, ScaleKernel.forwardScales, ScaleKernel.outputscale,
    ScaleKernel.updateRaw, h1, h2, h3]

/-- Witness for C10 at the concrete kernel `Kdemo`, the raw update `R1` and
an equal-fields kernel built by the update itself. -/
theorem outputscale_not_cached_witness :
    ((Kdemo.updateRaw R1).outputscale.val [0] =
      Kdemo.raw_outputscale_constraint.transform (R1.val [0])) ∧
    ((Kdemo.updateRaw R1).forward T0 T0 none false =
      (Kdemo.updateRaw R1).forward T0 T0 none false) :=
  ⟨(outputscale_not_cached Kdemo R1).1 [0],
   (outputscale_not_cached Kdemo R1).2 (Kdemo.updateRaw R1) T0 T0 none false
     rfl rfl rfl⟩

end GPyTorch
